import Mathlib

/-!
# Energy accounting of `SoftwarePowerMonitor` (src/esp32/software_power_monitor.h)

Shallow embedding of the class `SoftwarePowerMonitor`.

* `unsigned long` is the 32-bit unsigned integer of the ESP32: values are
  natural numbers, and every subtraction / addition of the source is taken
  modulo `2 ^ 32` (`subU32`, `addU32`).
* `int inferenceCount` is an integer without wrap-around (signed overflow is
  undefined in the source language and needs `2 ^ 31` inferences).
* `float` quantities are read as exact rationals (`ℚ`).  A floating-point
  division whose divisor is zero yields an infinity or a NaN in the source; the
  embedding makes that visible with `fdiv`, which returns `none` there.
* `millis()` is an input: every member function takes the clock value `now`
  that all of its `millis()` calls read.
* `Serial.printf` has no effect on the state and is left out.
-/

namespace SoftwarePowerMonitor

/-- Width modulus of `unsigned long` on the ESP32. -/
def ULONG_MOD : Nat := 2 ^ 32

/-- Unsigned 32-bit subtraction `a - b`, wrapping modulo `2 ^ 32`. -/
def subU32 (a b : Nat) : Nat := (a + (ULONG_MOD - b % ULONG_MOD)) % ULONG_MOD

/-- Unsigned 32-bit addition `a + b`, wrapping modulo `2 ^ 32`. -/
def addU32 (a b : Nat) : Nat := (a + b) % ULONG_MOD

/-- Floating-point division read over the rationals: `none` stands for the
non-finite result (infinity or NaN) of a division by zero. -/
def fdiv (a b : ℚ) : Option ℚ := if b = 0 then none else some (a / b)

/-- The private data members of the class. -/
structure State where
  lastInferenceTime : Nat
  inferenceTimeTotal : Nat
  inferenceCount : Int
  lastCheckpoint : Nat
  totalPowerUsage_mAh : ℚ
  lastPowerUpdate : Nat
  cameraActiveTime_ms : ℚ
  wifiActiveTime_ms : ℚ
  inferenceActiveTime_ms : ℚ
deriving DecidableEq

/-- The default member initialisers: the object as constructed. -/
def State.init : State :=
  { lastInferenceTime := 0
    inferenceTimeTotal := 0
    inferenceCount := 0
    lastCheckpoint := 0
    totalPowerUsage_mAh := 0
    lastPowerUpdate := 0
    cameraActiveTime_ms := 0
    wifiActiveTime_ms := 0
    inferenceActiveTime_ms := 0 }

def IDLE_CURRENT_MA : ℚ := 70
def CAMERA_CURRENT_MA : ℚ := 120
def WIFI_TX_CURRENT_MA : ℚ := 250
def ML_BASE_CURRENT_MA : ℚ := 180
def ML_PER_MS_CURRENT_MA : ℚ := 1 / 2

/-- Member function `begin()`. -/
def begin (s : State) (now : Nat) : State :=
  { s with lastCheckpoint := now, lastPowerUpdate := now }

/-- Member function `updatePowerUsage()`. -/
def updatePowerUsage (s : State) (now : Nat) : State :=
  let idleTime : Nat := subU32 now s.lastPowerUpdate
  let idleTime_h : ℚ := (idleTime : ℚ) / 3600000
  { s with
    totalPowerUsage_mAh := s.totalPowerUsage_mAh + IDLE_CURRENT_MA * idleTime_h
    lastPowerUpdate := now }

/-- Member function `startCamera()`. -/
def startCamera (s : State) (now : Nat) : State :=
  let s1 := updatePowerUsage s now
  { s1 with lastCheckpoint := now }

/-- Member function `endCamera()`. -/
def endCamera (s : State) (now : Nat) : State :=
  let duration : Nat := subU32 now s.lastCheckpoint
  let s1 := { s with cameraActiveTime_ms := s.cameraActiveTime_ms + (duration : ℚ) }
  let s2 := updatePowerUsage s1 now
  { s2 with lastCheckpoint := now }

/-- Member function `startWifiTransmission()`. -/
def startWifiTransmission (s : State) (now : Nat) : State :=
  let s1 := updatePowerUsage s now
  { s1 with lastCheckpoint := now }

/-- Member function `endWifiTransmission()`. -/
def endWifiTransmission (s : State) (now : Nat) : State :=
  let duration : Nat := subU32 now s.lastCheckpoint
  let s1 := { s with wifiActiveTime_ms := s.wifiActiveTime_ms + (duration : ℚ) }
  let s2 := updatePowerUsage s1 now
  { s2 with lastCheckpoint := now }

/-- Member function `startInference()`. -/
def startInference (s : State) (now : Nat) : State :=
  let s1 := updatePowerUsage s now
  { s1 with lastInferenceTime := now }

/-- Member function `calculateInferencePower(unsigned long duration_ms)`. -/
def calculateInferencePower (duration_ms : Nat) : ℚ :=
  let duration_h : ℚ := (duration_ms : ℚ) / 3600000
  let power_mAh : ℚ :=
    (ML_BASE_CURRENT_MA + (ML_PER_MS_CURRENT_MA * (duration_ms : ℚ))) * duration_h
  power_mAh

/-- Member function `endInference()`.  The value `inferencePower_mAh` is computed and only
printed by the source; it does not reach any data member. -/
def endInference (s : State) (now : Nat) : State :=
  let duration : Nat := subU32 now s.lastInferenceTime
  let s1 := { s with
    inferenceTimeTotal := addU32 s.inferenceTimeTotal duration
    inferenceActiveTime_ms := s.inferenceActiveTime_ms + (duration : ℚ)
    inferenceCount := s.inferenceCount + 1 }
  let _inferencePower_mAh : ℚ := calculateInferencePower duration
  let s2 := updatePowerUsage s1 now
  { s2 with lastCheckpoint := now }

/-- Member function `getTotalPowerUsage()`: the returned value and the state left behind. -/
def getTotalPowerUsage (s : State) (now : Nat) : ℚ × State :=
  let s1 := updatePowerUsage s now
  (s1.totalPowerUsage_mAh, s1)

/-- The divisor `elapsedTime_h` of `getEstimatedRuntime`. -/
def elapsedTime_h (now : Nat) : ℚ := (now : ℚ) / 3600000

/-- The divisor `avgPowerPerHour` of `getEstimatedRuntime`; `none` when the
division that produces it is itself a division by zero. -/
def avgPowerPerHour (s : State) (now : Nat) : Option ℚ :=
  fdiv s.totalPowerUsage_mAh (elapsedTime_h now)

/-- Member function `getEstimatedRuntime(batteryCapacity_mAh)`; `none` is a non-finite float. -/
def getEstimatedRuntime (s : State) (now : Nat) (batteryCapacity_mAh : ℚ) : Option ℚ :=
  if now = 0 then some 0
  else
    (avgPowerPerHour s now).bind fun avg => fdiv batteryCapacity_mAh avg

/-- Member function `getAverageInferenceTime()`. -/
def getAverageInferenceTime (s : State) : ℚ :=
  if s.inferenceCount > 0 then (s.inferenceTimeTotal : ℚ) / (s.inferenceCount : ℚ) else 0

/-- Conversion of a non-negative `float` to `unsigned long` at a call:
truncation toward zero, reduced to 32 bits. -/
def floatToULong (x : ℚ) : Nat := (Int.toNat ⌊x⌋) % ULONG_MOD

/-- Member function `getAverageInferencePower()`: the `float` average is passed to the
`unsigned long` parameter of `calculateInferencePower`. -/
def getAverageInferencePower (s : State) : ℚ :=
  if s.inferenceCount = 0 then 0
  else
    let avgTime : ℚ := getAverageInferenceTime s
    calculateInferencePower (floatToULong avgTime)

/-- Member function `getModelMemoryUsage()`. -/
def getModelMemoryUsage : Int := 350

/-- The public operations that a caller can issue after `begin()`. -/
inductive Op where
  | updatePowerUsage
  | getTotalPowerUsage
  | startCamera
  | endCamera
  | startWifiTransmission
  | endWifiTransmission
  | startInference
  | endInference
  | getEstimatedRuntime (batteryCapacity_mAh : ℚ)
  | getAverageInferenceTime
  | getAverageInferencePower
  | getModelMemoryUsage
  | printPowerStats
deriving DecidableEq

/-- A call together with the clock value it reads. -/
abbrev Event := Op × Nat

/-- State left behind by one call.  The accessors `getEstimatedRuntime`,
`getAverageInferenceTime`, `getAverageInferencePower` and `getModelMemoryUsage`
write no data member; `printPowerStats` writes through its call of
`getTotalPowerUsage`. -/
def step (s : State) (e : Event) : State :=
  match e.1 with
  | Op.updatePowerUsage => updatePowerUsage s e.2
  | Op.getTotalPowerUsage => (getTotalPowerUsage s e.2).2
  | Op.startCamera => startCamera s e.2
  | Op.endCamera => endCamera s e.2
  | Op.startWifiTransmission => startWifiTransmission s e.2
  | Op.endWifiTransmission => endWifiTransmission s e.2
  | Op.startInference => startInference s e.2
  | Op.endInference => endInference s e.2
  | Op.getEstimatedRuntime _ => s
  | Op.getAverageInferenceTime => s
  | Op.getAverageInferencePower => s
  | Op.getModelMemoryUsage => s
  | Op.printPowerStats => (getTotalPowerUsage s e.2).2

/-- State after a sequence of calls. -/
def run (s : State) (evs : List Event) : State := evs.foldl step s

/-- Clock values of a trace are non-decreasing from `t` on and fit 32 bits. -/
def Chrono : Nat → List Event → Prop
  | _, [] => True
  | t, e :: es => t ≤ e.2 ∧ e.2 < ULONG_MOD ∧ Chrono e.2 es

instance Chrono.instDecidable : (t : Nat) → (evs : List Event) → Decidable (Chrono t evs)
  | _, [] => isTrue trivial
  | t, e :: es =>
    have := Chrono.instDecidable e.2 es
    inferInstanceAs (Decidable (t ≤ e.2 ∧ e.2 < ULONG_MOD ∧ Chrono e.2 es))

/-- Clock value of the last call of a trace (`t` when the trace is empty). -/
def lastClock : Nat → List Event → Nat
  | t, [] => t
  | _, e :: es => lastClock e.2 es

/-- Operations of the idle path and of the camera and wifi trackers. -/
def Op.noInference : Op → Bool
  | Op.updatePowerUsage => true
  | Op.getTotalPowerUsage => true
  | Op.startCamera => true
  | Op.endCamera => true
  | Op.startWifiTransmission => true
  | Op.endWifiTransmission => true
  | _ => false

/-- Default argument of `getEstimatedRuntime(float batteryCapacity_mAh = 2000.0)`. -/
def DEFAULT_BATTERY_CAPACITY_MAH : ℚ := 2000

end SoftwarePowerMonitor

/-!
# Battery voltage reader `PowerMonitor` (src/esp32/power_monitor.h)

Only the data members and `getBatteryPercentage` are embedded; `float` values
are read as exact rationals, so `4.2` is `42/10` and `3.3` is `33/10`.
-/

namespace PowerMonitor

/-- The private data members of the class. -/
structure State where
  lastInferenceTime : Nat
  inferenceTimeTotal : Nat
  inferenceCount : Int
  lastBatteryCheck : Nat
  initialVoltage : ℚ
  currentVoltage : ℚ
deriving DecidableEq

/-- The default member initialisers: the object as constructed. -/
def State.init : State :=
  { lastInferenceTime := 0
    inferenceTimeTotal := 0
    inferenceCount := 0
    lastBatteryCheck := 0
    initialVoltage := 0
    currentVoltage := 0 }

def BATTERY_PIN : Int := 33
def VOLTAGE_DIVIDER_RATIO : ℚ := 2
def BATTERY_MAX_VOLTAGE : ℚ := 42 / 10
def BATTERY_MIN_VOLTAGE : ℚ := 33 / 10

/-- Modelled from the spec: the macro `constrain(amt, low, high)` comes from
`Arduino.h`, which is not part of the repository; the spec says the percentage
is clamped to the range 0 to 100.  The macro yields `low` when `amt < low`,
`high` when `amt > high`, and `amt` otherwise. -/
def constrain (amt low high : ℚ) : ℚ :=
  if amt < low then low else if amt > high then high else amt

/-- Conversion `(int)` of a `float`: truncation toward zero. -/
def floatToInt (x : ℚ) : Int := if 0 ≤ x then ⌊x⌋ else ⌈x⌉

/-- Member function `getBatteryPercentage()`. -/
def getBatteryPercentage (s : State) : Int :=
  let percentage : ℚ :=
    (s.currentVoltage - BATTERY_MIN_VOLTAGE) / (BATTERY_MAX_VOLTAGE - BATTERY_MIN_VOLTAGE) * 100
  let percentage : ℚ := constrain percentage 0 100
  floatToInt percentage

end PowerMonitor

/-! ## Theorems -/

namespace SoftwarePowerMonitor

/-! ### Arithmetic of the 32-bit clock -/

theorem subU32_of_le {a b : Nat} (hba : b ≤ a) (ha : a < ULONG_MOD) :
    subU32 a b = a - b := by
  unfold subU32
  unfold ULONG_MOD at *
  omega

theorem updatePowerUsage_total (s : State) (now : Nat) :
    (updatePowerUsage s now).totalPowerUsage_mAh
      = s.totalPowerUsage_mAh + IDLE_CURRENT_MA * ((subU32 now s.lastPowerUpdate : ℚ) / 3600000) :=
  rfl

theorem idle_charge_nonneg (n : Nat) : 0 ≤ IDLE_CURRENT_MA * ((n : ℚ) / 3600000) := by
  unfold IDLE_CURRENT_MA
  positivity

theorem updatePowerUsage_total_le (s : State) (now : Nat) :
    s.totalPowerUsage_mAh ≤ (updatePowerUsage s now).totalPowerUsage_mAh := by
  rw [updatePowerUsage_total]
  linarith [idle_charge_nonneg (subU32 now s.lastPowerUpdate)]

theorem step_total_le (s : State) (e : Event) :
    s.totalPowerUsage_mAh ≤ (step s e).totalPowerUsage_mAh := by
  obtain ⟨op, now⟩ := e
  cases op <;>
    first
      | exact le_refl _
      | exact updatePowerUsage_total_le s now

/-! ### Traces -/

theorem run_nil (s : State) : run s [] = s := rfl

theorem run_cons (s : State) (e : Event) (es : List Event) :
    run s (e :: es) = run (step s e) es := rfl

theorem chrono_append (t : Nat) (xs ys : List Event) :
    Chrono t (xs ++ ys) ↔ Chrono t xs ∧ Chrono (lastClock t xs) ys := by
  induction xs generalizing t with
  | nil => simp [Chrono, lastClock]
  | cons e es ih =>
    have h := ih e.2
    constructor
    · intro hc
      have hc' : t ≤ e.2 ∧ e.2 < ULONG_MOD ∧ Chrono e.2 (es ++ ys) := hc
      exact ⟨⟨hc'.1, hc'.2.1, (h.mp hc'.2.2).1⟩, (h.mp hc'.2.2).2⟩
    · intro hc
      have hc1 : t ≤ e.2 ∧ e.2 < ULONG_MOD ∧ Chrono e.2 es := hc.1
      have hc2 : Chrono (lastClock e.2 es) ys := hc.2
      exact ⟨hc1.1, hc1.2.1, h.mpr ⟨hc1.2.2, hc2⟩⟩

theorem run_take_total_le (s : State) (evs : List Event) (k : Nat) :
    (run s (evs.take k)).totalPowerUsage_mAh
      ≤ (run s (evs.take (k + 1))).totalPowerUsage_mAh := by
  induction evs generalizing s k with
  | nil => simp [run]
  | cons e es ih =>
    cases k with
    | zero =>
      simp only [List.take_zero, List.take_succ_cons, List.take_nil, run_nil, run_cons]
      exact step_total_le s e
    | succ k =>
      simp only [List.take_succ_cons, run_cons]
      exact ih (step s e) k

/-- Each call either performs the idle checkpoint at its clock value or leaves
the charge accumulator and its timestamp alone. -/
theorem step_power_cases (s : State) (e : Event) :
    ((step s e).totalPowerUsage_mAh = (updatePowerUsage s e.2).totalPowerUsage_mAh
        ∧ (step s e).lastPowerUpdate = e.2)
      ∨ ((step s e).totalPowerUsage_mAh = s.totalPowerUsage_mAh
        ∧ (step s e).lastPowerUpdate = s.lastPowerUpdate) := by
  obtain ⟨op, now⟩ := e
  cases op <;> first | exact Or.inl ⟨rfl, rfl⟩ | exact Or.inr ⟨rfl, rfl⟩

/-- The accumulated charge is the idle charge of the span from `t0` to the last
checkpoint, along every chronological trace. -/
theorem run_idle_invariant (t0 : Nat) (evs : List Event) :
    ∀ (s : State) (t : Nat),
      s.totalPowerUsage_mAh = IDLE_CURRENT_MA * (((s.lastPowerUpdate : ℚ) - t0) / 3600000) →
      t0 ≤ s.lastPowerUpdate → s.lastPowerUpdate ≤ t → Chrono t evs →
      (run s evs).totalPowerUsage_mAh
          = IDLE_CURRENT_MA * ((((run s evs).lastPowerUpdate : ℚ) - t0) / 3600000)
        ∧ t0 ≤ (run s evs).lastPowerUpdate
        ∧ (run s evs).lastPowerUpdate ≤ lastClock t evs := by
  induction evs with
  | nil =>
    intro s t h1 h2 h3 _
    exact ⟨h1, h2, h3⟩
  | cons e es ih =>
    intro s t h1 h2 h3 hc
    obtain ⟨hte, hlt, hrest⟩ := hc
    rw [run_cons]
    have hle : s.lastPowerUpdate ≤ e.2 := le_trans h3 hte
    rcases step_power_cases s e with ⟨ht, hl⟩ | ⟨ht, hl⟩
    · refine ih (step s e) e.2 ?_ ?_ ?_ hrest
      · rw [ht, hl, updatePowerUsage_total, h1, subU32_of_le hle hlt, Nat.cast_sub hle]
        ring
      · rw [hl]; exact le_trans h2 hle
      · rw [hl]
    · refine ih (step s e) e.2 ?_ ?_ ?_ hrest
      · rw [ht, hl]; exact h1
      · rw [hl]; exact h2
      · rw [hl]; exact hle

/-! ### C1: what `endInference` adds to the accumulated charge -/

/-- C2: along every trace that starts with `begin()` at clock `t0` on the
constructed object, performs calls of `updatePowerUsage`, `getTotalPowerUsage`,
`startCamera`, `endCamera`, `startWifiTransmission`, `endWifiTransmission` at
non-decreasing clock values and ends with `getTotalPowerUsage()` at clock `T`,
`totalPowerUsage_mAh` never decreases from one call to the next and the final call
returns exactly `IDLE_CURRENT_MA * (T - t0) / 3600000`. -/
theorem idle_trace_total_usage (t0 T : Nat) (evs : List Event)
    (hchrono : Chrono t0 (evs ++ [(Op.getTotalPowerUsage, T)]))
    (_hops : ∀ e ∈ evs, e.1.noInference = true) :
    (∀ k : Nat,
        (run (begin State.init t0)
            ((evs ++ [(Op.getTotalPowerUsage, T)]).take k)).totalPowerUsage_mAh
          ≤ (run (begin State.init t0)
              ((evs ++ [(Op.getTotalPowerUsage, T)]).take (k + 1))).totalPowerUsage_mAh)
      ∧ (getTotalPowerUsage (run (begin State.init t0) evs) T).1
          = IDLE_CURRENT_MA * ((T : ℚ) - (t0 : ℚ)) / 3600000 := by
  refine ⟨fun k => run_take_total_le _ _ k, ?_⟩
  obtain ⟨hc1, hc2⟩ := (chrono_append t0 evs _).mp hchrono
  obtain ⟨hT1, hT2, _⟩ := hc2
  have h0 : (begin State.init t0).totalPowerUsage_mAh
      = IDLE_CURRENT_MA * ((((begin State.init t0).lastPowerUpdate : ℚ) - t0) / 3600000) := by
    simp [begin, State.init]
  obtain ⟨hinv, _, hlast⟩ :=
    run_idle_invariant t0 evs (begin State.init t0) t0 h0 (le_refl t0) (le_refl t0) hc1
  have hle : (run (begin State.init t0) evs).lastPowerUpdate ≤ T := le_trans hlast hT1
  show (updatePowerUsage (run (begin State.init t0) evs) T).totalPowerUsage_mAh = _
  rw [updatePowerUsage_total, hinv, subU32_of_le hle hT2, Nat.cast_sub hle]
  ring

/-- C2, instance: `t0 = 0`, no activities, one hour later the reading is 70 mAh. -/
theorem idle_trace_total_usage_witness :
    Chrono 0 (([] : List Event) ++ [(Op.getTotalPowerUsage, 3600000)])
      ∧ (getTotalPowerUsage (run (begin State.init 0) []) 3600000).1 = 70 := by
  have hc : Chrono 0 (([] : List Event) ++ [(Op.getTotalPowerUsage, 3600000)]) := by
    simp [Chrono, ULONG_MOD]
  have h := (idle_trace_total_usage 0 3600000 [] hc (by simp)).2
  refine ⟨hc, ?_⟩
  rw [h]
  norm_num [IDLE_CURRENT_MA]

/-! ### C3: the inference cost formula -/

/-- C3: `calculateInferencePower(duration_ms)` equals
`(ML_BASE_CURRENT_MA + ML_PER_MS_CURRENT_MA * duration_ms) * (duration_ms / 3600000)`
with `ML_BASE_CURRENT_MA = 180` and `ML_PER_MS_CURRENT_MA = 0.5`, for every duration;
it is `0` at duration 0 and `23/3600` at duration 100. -/
theorem calculateInferencePower_closed_form :
    (∀ duration_ms : Nat,
        calculateInferencePower duration_ms
          = (180 + (1 / 2 : ℚ) * (duration_ms : ℚ)) * ((duration_ms : ℚ) / 3600000))
      ∧ ML_BASE_CURRENT_MA = 180 ∧ ML_PER_MS_CURRENT_MA = 1 / 2
      ∧ calculateInferencePower 0 = 0
      ∧ calculateInferencePower 100 = (180 + 50) * 100 / 3600000
      ∧ calculateInferencePower 100 = 23 / 3600 := by
  refine ⟨fun d => rfl, rfl, rfl, ?_, ?_, ?_⟩ <;>
    norm_num [calculateInferencePower, ML_BASE_CURRENT_MA, ML_PER_MS_CURRENT_MA]

/-! ### C4: the span an end call measures -/

theorem subU32_eq_zero_iff_mod (a b : Nat) :
    subU32 a b = 0 ↔ a % ULONG_MOD = b % ULONG_MOD := by
  unfold subU32
  unfold ULONG_MOD
  omega

/-- C9: the divergence, evaluated: after `begin()` at clock 0 on the
constructed object, `getEstimatedRuntime(2000)` at clock 1000 does not take the
sentinel branch, its first divisor `elapsedTime_h` is non-zero, its second
divisor `avgPowerPerHour` is `0 / elapsedTime_h = 0`, and the final division
`2000 / 0` is a division by zero (`none`: a non-finite float). -/
theorem getEstimatedRuntime_zero_rate_divides_by_zero :
    (begin State.init 0).totalPowerUsage_mAh = 0
      ∧ elapsedTime_h 1000 ≠ 0
      ∧ avgPowerPerHour (begin State.init 0) 1000 = some 0
      ∧ getEstimatedRuntime (begin State.init 0) 1000 2000 = none
      ∧ getEstimatedRuntime (begin State.init 0) 1000 2000 ≠ some 0 := by
  have h1 : elapsedTime_h 1000 ≠ 0 := by
    norm_num [elapsedTime_h]
  have h2 : avgPowerPerHour (begin State.init 0) 1000 = some 0 := by
    unfold avgPowerPerHour fdiv
    rw [if_neg h1]
    simp [begin, State.init]
  have h3 : getEstimatedRuntime (begin State.init 0) 1000 2000 = none := by
    unfold getEstimatedRuntime
    rw [if_neg (by decide), h2]
    simp [fdiv]
  refine ⟨rfl, h1, h2, h3, ?_⟩
  rw [h3]
  exact fun h => Option.noConfusion h

/-- C10: for every state and every battery capacity, `getEstimatedRuntime`
called when the clock value is 0 returns the sentinel 0. -/
theorem getEstimatedRuntime_at_boot (s : State) (batteryCapacity_mAh : ℚ) :
    getEstimatedRuntime s 0 batteryCapacity_mAh = some 0 := by
  unfold getEstimatedRuntime
  rw [if_pos rfl]

/-! ### C11: the runtime estimate as a formula -/

/-- C11: for every state with `totalPowerUsage_mAh > 0`, every clock value
`now > 0` and every capacity, `getEstimatedRuntime(capacity)` returns
`capacity / (totalPowerUsage_mAh / (now / 3600000))`, which is
`capacity * now / (3600000 * totalPowerUsage_mAh)`, and leaves the state
unchanged; the default capacity is 2000. -/
theorem getEstimatedRuntime_formula (s : State) (now : Nat) (batteryCapacity_mAh : ℚ)
    (htotal : s.totalPowerUsage_mAh > 0) (hnow : now > 0) :
    getEstimatedRuntime s now batteryCapacity_mAh
        = some (batteryCapacity_mAh / (s.totalPowerUsage_mAh / ((now : ℚ) / 3600000)))
      ∧ batteryCapacity_mAh / (s.totalPowerUsage_mAh / ((now : ℚ) / 3600000))
        = batteryCapacity_mAh * (now : ℚ) / (3600000 * s.totalPowerUsage_mAh)
      ∧ step s (Op.getEstimatedRuntime batteryCapacity_mAh, now) = s
      ∧ DEFAULT_BATTERY_CAPACITY_MAH = 2000 := by
  have hnowq : (0 : ℚ) < (now : ℚ) := by exact_mod_cast hnow
  have hel : elapsedTime_h now ≠ 0 := by
    unfold elapsedTime_h
    positivity
  have havg : s.totalPowerUsage_mAh / ((now : ℚ) / 3600000) ≠ 0 := by
    have : 0 < s.totalPowerUsage_mAh / ((now : ℚ) / 3600000) := by positivity
    exact ne_of_gt this
  refine ⟨?_, ?_, rfl, rfl⟩
  · unfold getEstimatedRuntime avgPowerPerHour fdiv
    rw [if_neg (Nat.pos_iff_ne_zero.mp hnow), if_neg hel]
    show (if s.totalPowerUsage_mAh / elapsedTime_h now = 0 then none
      else some (batteryCapacity_mAh / (s.totalPowerUsage_mAh / elapsedTime_h now))) = _
    unfold elapsedTime_h
    rw [if_neg havg]
  · have ht : s.totalPowerUsage_mAh ≠ 0 := ne_of_gt htotal
    have hn : (now : ℚ) ≠ 0 := ne_of_gt hnowq
    field_simp
    exact Or.inl (mul_comm _ _)

/-- C11, instance: one hour after `begin()` at clock 0, with the checkpoint taken,
the accumulated charge is 70 and the estimate for the default capacity is
`2000 / 70`. -/
theorem getEstimatedRuntime_formula_witness :
    (updatePowerUsage (begin State.init 0) 3600000).totalPowerUsage_mAh > 0
      ∧ getEstimatedRuntime (updatePowerUsage (begin State.init 0) 3600000) 3600000
          DEFAULT_BATTERY_CAPACITY_MAH = some (2000 / 70) := by
  have ht : (updatePowerUsage (begin State.init 0) 3600000).totalPowerUsage_mAh = 70 := by
    norm_num [updatePowerUsage, begin, State.init, subU32, ULONG_MOD, IDLE_CURRENT_MA]
  have h := (getEstimatedRuntime_formula (updatePowerUsage (begin State.init 0) 3600000)
    3600000 DEFAULT_BATTERY_CAPACITY_MAH (by rw [ht]; norm_num) (by decide)).1
  refine ⟨by rw [ht]; norm_num, ?_⟩
  rw [h, ht]
  norm_num [DEFAULT_BATTERY_CAPACITY_MAH]

/-! ### C12: which reads take the checkpoint first -/

/-- C12: the divergence, evaluated: after `begin()` at clock 0 and
`updatePowerUsage()` at clock 1000, `getEstimatedRuntime(2000)` at clock 2000
returns `400/7`, while after a checkpoint at clock 2000 it returns `200/7`;
`getTotalPowerUsage()` at clock 2000 returns the same value with and without
that checkpoint. -/
theorem getEstimatedRuntime_reads_stale_charge :
    (updatePowerUsage (begin State.init 0) 1000).lastPowerUpdate ≤ 2000
      ∧ getEstimatedRuntime (updatePowerUsage (begin State.init 0) 1000) 2000 2000
          = some (400 / 7)
      ∧ getEstimatedRuntime
          (updatePowerUsage (updatePowerUsage (begin State.init 0) 1000) 2000) 2000 2000
          = some (200 / 7)
      ∧ (getTotalPowerUsage (updatePowerUsage (begin State.init 0) 1000) 2000).1
          = (getTotalPowerUsage
              (updatePowerUsage (updatePowerUsage (begin State.init 0) 1000) 2000) 2000).1 := by
  have h1 : (updatePowerUsage (begin State.init 0) 1000).totalPowerUsage_mAh = 7 / 360 := by
    norm_num [updatePowerUsage, begin, State.init, subU32, ULONG_MOD, IDLE_CURRENT_MA]
  have h2 : (updatePowerUsage (updatePowerUsage (begin State.init 0) 1000)
      2000).totalPowerUsage_mAh = 7 / 180 := by
    norm_num [updatePowerUsage, begin, State.init, subU32, ULONG_MOD, IDLE_CURRENT_MA]
  refine ⟨by decide, ?_, ?_, ?_⟩
  · unfold getEstimatedRuntime avgPowerPerHour
    rw [if_neg (by decide), h1]
    norm_num [fdiv, elapsedTime_h]
  · unfold getEstimatedRuntime avgPowerPerHour
    rw [if_neg (by decide), h2]
    norm_num [fdiv, elapsedTime_h]
  · norm_num [getTotalPowerUsage, updatePowerUsage, begin, State.init, subU32, ULONG_MOD,
      IDLE_CURRENT_MA]

/-! ### C13: monotonicity of the inference cost -/

theorem subU32_same (a : Nat) : subU32 a a = 0 :=
  (subU32_eq_zero_iff_mod a a).mpr rfl

/-- C14: for every state and every clock value `now`, calling
`updatePowerUsage()` twice at the same `now` yields the same state as calling it
once; in particular `totalPowerUsage_mAh` and `lastPowerUpdate` agree. -/
theorem updatePowerUsage_idempotent (s : State) (now : Nat) :
    updatePowerUsage (updatePowerUsage s now) now = updatePowerUsage s now
      ∧ (updatePowerUsage (updatePowerUsage s now) now).totalPowerUsage_mAh
          = (updatePowerUsage s now).totalPowerUsage_mAh
      ∧ (updatePowerUsage (updatePowerUsage s now) now).lastPowerUpdate
          = (updatePowerUsage s now).lastPowerUpdate := by
  have h : updatePowerUsage (updatePowerUsage s now) now = updatePowerUsage s now := by
    simp [updatePowerUsage, subU32_same]
  exact ⟨h, by rw [h], by rw [h]⟩

/-! ### C15, C16: frame and monotonicity of the per-kind totals -/

/-- C15: for every state and clock value, `endCamera()` leaves
`wifiActiveTime_ms`, `inferenceActiveTime_ms`, `inferenceTimeTotal` and
`inferenceCount` unchanged; `endWifiTransmission()` leaves `cameraActiveTime_ms`
and the inference fields unchanged; `endInference()` leaves `cameraActiveTime_ms`
and `wifiActiveTime_ms` unchanged. -/
theorem end_call_frame (s : State) (now : Nat) :
    ((endCamera s now).wifiActiveTime_ms = s.wifiActiveTime_ms
        ∧ (endCamera s now).inferenceActiveTime_ms = s.inferenceActiveTime_ms
        ∧ (endCamera s now).inferenceTimeTotal = s.inferenceTimeTotal
        ∧ (endCamera s now).inferenceCount = s.inferenceCount)
      ∧ ((endWifiTransmission s now).cameraActiveTime_ms = s.cameraActiveTime_ms
        ∧ (endWifiTransmission s now).inferenceActiveTime_ms = s.inferenceActiveTime_ms
        ∧ (endWifiTransmission s now).inferenceTimeTotal = s.inferenceTimeTotal
        ∧ (endWifiTransmission s now).inferenceCount = s.inferenceCount)
      ∧ ((endInference s now).cameraActiveTime_ms = s.cameraActiveTime_ms
        ∧ (endInference s now).wifiActiveTime_ms = s.wifiActiveTime_ms) :=
  ⟨⟨rfl, rfl, rfl, rfl⟩, ⟨rfl, rfl, rfl, rfl⟩, ⟨rfl, rfl⟩⟩

/-- C16: for every state, every public operation (`begin()` included) and every
clock value, `cameraActiveTime_ms`, `wifiActiveTime_ms` and
`inferenceActiveTime_ms` after the operation are each at least their value
before it. -/
theorem active_times_never_decrease (s : State) (e : Event) :
    (s.cameraActiveTime_ms ≤ (step s e).cameraActiveTime_ms
        ∧ s.wifiActiveTime_ms ≤ (step s e).wifiActiveTime_ms
        ∧ s.inferenceActiveTime_ms ≤ (step s e).inferenceActiveTime_ms)
      ∧ (s.cameraActiveTime_ms ≤ (begin s e.2).cameraActiveTime_ms
        ∧ s.wifiActiveTime_ms ≤ (begin s e.2).wifiActiveTime_ms
        ∧ s.inferenceActiveTime_ms ≤ (begin s e.2).inferenceActiveTime_ms) := by
  obtain ⟨op, now⟩ := e
  refine ⟨?_, le_refl _, le_refl _, le_refl _⟩
  have hc : s.cameraActiveTime_ms
      ≤ s.cameraActiveTime_ms + (subU32 now s.lastCheckpoint : ℚ) :=
    le_add_of_nonneg_right (Nat.cast_nonneg _)
  have hw : s.wifiActiveTime_ms
      ≤ s.wifiActiveTime_ms + (subU32 now s.lastCheckpoint : ℚ) :=
    le_add_of_nonneg_right (Nat.cast_nonneg _)
  have hi : s.inferenceActiveTime_ms
      ≤ s.inferenceActiveTime_ms + (subU32 now s.lastInferenceTime : ℚ) :=
    le_add_of_nonneg_right (Nat.cast_nonneg _)
  cases op <;>
    first
      | exact ⟨le_refl _, le_refl _, le_refl _⟩
      | exact ⟨hc, le_refl _, le_refl _⟩
      | exact ⟨le_refl _, hw, le_refl _⟩
      | exact ⟨le_refl _, le_refl _, hi⟩

end SoftwarePowerMonitor

namespace PowerMonitor

/-! ### C17: the battery percentage -/

theorem constrain_eq_min_max (x : ℚ) : constrain x 0 100 = min 100 (max 0 x) := by
  unfold constrain
  rcases lt_or_le x 0 with h | h
  · rw [if_pos h, max_eq_left (le_of_lt h), min_eq_right (by norm_num)]
  · rw [if_neg (not_lt.mpr h), max_eq_right h]
    rcases lt_or_le 100 x with h2 | h2
    · rw [if_pos h2, min_eq_left (le_of_lt h2)]
    · rw [if_neg (not_lt.mpr h2), min_eq_right h2]

theorem clamp_bounds (x : ℚ) : 0 ≤ min 100 (max 0 x) ∧ min 100 (max 0 x) ≤ 100 :=
  ⟨le_min (by norm_num) (le_max_left 0 x), min_le_left 100 _⟩

theorem getBatteryPercentage_eq_floor (s : State) :
    getBatteryPercentage s
      = ⌊min 100 (max 0 ((s.currentVoltage - 33 / 10) / (42 / 10 - 33 / 10) * 100))⌋ := by
  unfold getBatteryPercentage floatToInt BATTERY_MIN_VOLTAGE BATTERY_MAX_VOLTAGE
  simp only [constrain_eq_min_max]
  rw [if_pos (clamp_bounds _).1]

theorem linear_map_mono {v1 v2 : ℚ} (h : v1 ≤ v2) :
    (v1 - 33 / 10) / (42 / 10 - 33 / 10) * 100 ≤ (v2 - 33 / 10) / (42 / 10 - 33 / 10) * 100 := by
  have hd : (0 : ℚ) < 42 / 10 - 33 / 10 := by norm_num
  have h1 : (v1 - 33 / 10) / (42 / 10 - 33 / 10) ≤ (v2 - 33 / 10) / (42 / 10 - 33 / 10) :=
    div_le_div_of_nonneg_right (by linarith) (le_of_lt hd)
  linarith

/-- C17: `getBatteryPercentage` is the integer part of
`min(100, max(0, (v - 3.3) / (4.2 - 3.3) * 100))` for every `currentVoltage` `v`;
it lies in `0..100`, is 0 for every `v <= 3.3`, is 100 for every `v >= 4.2`, and
is non-decreasing in `v`. -/
theorem getBatteryPercentage_linear_clamped (s1 s2 : State)
    (hle : s1.currentVoltage ≤ s2.currentVoltage) :
    getBatteryPercentage s1
        = ⌊min 100 (max 0 ((s1.currentVoltage - 33 / 10) / (42 / 10 - 33 / 10) * 100))⌋
      ∧ 0 ≤ getBatteryPercentage s1
      ∧ getBatteryPercentage s1 ≤ 100
      ∧ (s1.currentVoltage ≤ 33 / 10 → getBatteryPercentage s1 = 0)
      ∧ (42 / 10 ≤ s1.currentVoltage → getBatteryPercentage s1 = 100)
      ∧ getBatteryPercentage s1 ≤ getBatteryPercentage s2 := by
  have hf1 := getBatteryPercentage_eq_floor s1
  have hf2 := getBatteryPercentage_eq_floor s2
  obtain ⟨hlo, hhi⟩ := clamp_bounds ((s1.currentVoltage - 33 / 10) / (42 / 10 - 33 / 10) * 100)
  refine ⟨hf1, ?_, ?_, ?_, ?_, ?_⟩
  · rw [hf1]
    exact Int.floor_nonneg.mpr hlo
  · rw [hf1]
    have h : ((⌊min 100 (max 0
        ((s1.currentVoltage - 33 / 10) / (42 / 10 - 33 / 10) * 100))⌋ : ℤ) : ℚ) ≤ 100 :=
      le_trans (Int.floor_le _) hhi
    exact_mod_cast h
  · intro hv
    have hp : (s1.currentVoltage - 33 / 10) / (42 / 10 - 33 / 10) * 100 ≤ 0 := by
      have := linear_map_mono hv
      norm_num at this ⊢
      linarith
    rw [hf1, max_eq_left hp, min_eq_right (by norm_num)]
    exact Int.floor_zero
  · intro hv
    have hp : 100 ≤ (s1.currentVoltage - 33 / 10) / (42 / 10 - 33 / 10) * 100 := by
      have := linear_map_mono hv
      norm_num at this ⊢
      linarith
    rw [hf1, max_eq_right (le_trans (by norm_num) hp), min_eq_left hp]
    have h100 : ⌊(100 : ℚ)⌋ = 100 := by
      rw [Int.floor_eq_iff]
      norm_num
    exact h100
  · rw [hf1, hf2]
    apply Int.floor_mono
    exact min_le_min (le_refl _) (max_le_max (le_refl _) (linear_map_mono hle))

/-- C17, instance: 3.0 V reads 0 percent and is not above the reading at 4.5 V. -/
theorem getBatteryPercentage_linear_clamped_witness :
    ({ State.init with currentVoltage := 3 } : State).currentVoltage
        ≤ ({ State.init with currentVoltage := 9 / 2 } : State).currentVoltage
      ∧ getBatteryPercentage { State.init with currentVoltage := 3 } = 0
      ∧ getBatteryPercentage { State.init with currentVoltage := 3 }
          ≤ getBatteryPercentage { State.init with currentVoltage := 9 / 2 } := by
  have hle : ({ State.init with currentVoltage := 3 } : State).currentVoltage
      ≤ ({ State.init with currentVoltage := 9 / 2 } : State).currentVoltage := by
    show (3 : ℚ) ≤ 9 / 2
    norm_num
  have h := getBatteryPercentage_linear_clamped
    { State.init with currentVoltage := 3 } { State.init with currentVoltage := 9 / 2 } hle
  refine ⟨hle, h.2.2.2.1 ?_, h.2.2.2.2.2⟩
  show (3 : ℚ) ≤ 33 / 10
  norm_num

end PowerMonitor

namespace SoftwarePowerMonitor

/-! ### Prefixes of chronological traces -/

end SoftwarePowerMonitor
